import Mathlib

/-!
Shallow embedding of `PyInstaller/utils/osx.py`: the Mach-O inspection and
patching utilities (architecture resolution, SDK / minimum-OS version codec,
and the link-edit patch applied after data is appended to an executable).

Python integers are unbounded, so machine-word fields read from the file are
modelled as `Nat` (they are parsed unsigned) while fields that the code
recomputes by subtraction (sizes and offsets inside
`fix_exe_for_code_signing`) are modelled as `Int`, matching Python's signed
unbounded arithmetic.  Python exceptions are modelled by `Except PyError`.
-/

/-- Python exception classes raised by the module. -/
inductive PyError where
  | assertionError (msg : String)
  | invalidBinaryError (msg : String)
  | incompatibleBinaryArchError (msg : String)
  | systemError (msg : String)
  | indexError (msg : String)
  | valueError (msg : String)
deriving DecidableEq, Repr

/-- Fields of `mach_header` / `mach_header_64` used by `_get_arch_string`. -/
structure MachHeaderFields where
  cputype : Nat
  cpusubtype : Nat
deriving DecidableEq, Repr

/-- An `LC_SEGMENT_64` load command (the fields the code touches). -/
structure SegmentCommand64 where
  segname : List Nat
  fileoff : Int
  filesize : Int
  vmsize : Int
deriving DecidableEq, Repr

/-- An `LC_SYMTAB` load command (the fields the code touches). -/
structure SymtabCommand where
  stroff : Int
  strsize : Int
deriving DecidableEq, Repr

/-- An `LC_BUILD_VERSION` load command (the fields the code touches). -/
structure BuildVersionCommand where
  minos : Nat
  sdk : Nat
deriving DecidableEq, Repr

/-- An `LC_VERSION_MIN_MACOSX` load command (the fields the code touches). -/
structure VersionMinCommand where
  version : Nat
  sdk : Nat
deriving DecidableEq, Repr

/-- An `LC_CODE_SIGNATURE` load command. -/
structure CodeSignatureCommand where
  dataoff : Nat
  datasize : Nat
deriving DecidableEq, Repr

/-- A load command, tagged by the command kinds the module filters on;
any other command id is kept opaque (`other`). -/
inductive LoadCommand where
  | segment64 (seg : SegmentCommand64)
  | symtab (st : SymtabCommand)
  | buildVersion (bv : BuildVersionCommand)
  | versionMinMacOS (vm : VersionMinCommand)
  | codeSignature (cs : CodeSignatureCommand)
  | other (cmdId : Nat)
deriving DecidableEq, Repr

/-- One architecture slice (`macholib`'s `MachOHeader`): its byte offset
within the container file (`0` for thin binaries), its Mach header fields
and its ordered load commands. -/
structure MachOHeader where
  offset : Int
  header : MachHeaderFields
  commands : List LoadCommand
deriving DecidableEq, Repr

/-- One entry of a fat container's architecture table (`fat_arch`). -/
structure FatArch where
  cputype : Nat
  cpusubtype : Nat
  offset : Int
  size : Int
  align : Nat
deriving DecidableEq, Repr

/-- A parsed Mach-O container (`macholib`'s `MachO`): thin/fat flag, the
arch slices, and (for fat files) the fat header's per-slice table. -/
structure MachO where
  fat : Bool
  headers : List MachOHeader
  fatArchs : List FatArch
deriving DecidableEq, Repr

/-- `b'__LINKEDIT\x00\x00\x00\x00\x00\x00'`, the 16-byte zero-padded
segment name the code matches against. -/
def LINKEDIT_NAME : List Nat :=
  [0x5f, 0x5f, 0x4c, 0x49, 0x4e, 0x4b, 0x45, 0x44, 0x49, 0x54, 0, 0, 0, 0, 0, 0]

/-- The payload of a version command: one of the two mutually exclusive
kinds `_find_version_cmd` accepts. -/
inductive VersionCmdPayload where
  | buildVersion (bv : BuildVersionCommand)
  | versionMin (vm : VersionMinCommand)
deriving DecidableEq, Repr

/-- Selects a command whose id is `LC_BUILD_VERSION` or
`LC_VERSION_MIN_MACOSX` (the filter in `_find_version_cmd`). -/
def getVersionCmd : LoadCommand → Option VersionCmdPayload
  | .buildVersion bv => some (.buildVersion bv)
  | .versionMinMacOS vm => some (.versionMin vm)
  | _ => none

/-- The `sdk` field of a version command (`version_cmd[1].sdk`). -/
def VersionCmdPayload.sdk : VersionCmdPayload → Nat
  | .buildVersion bv => bv.sdk
  | .versionMin vm => vm.sdk

/-- `_find_version_cmd(header)`: the unique version command of the slice;
the `assert len(version_cmd) == 1` failure is an `AssertionError`. -/
def _find_version_cmd (header : MachOHeader) : Except PyError VersionCmdPayload :=
  match header.commands.filterMap getVersionCmd with
  | [c] => .ok c
  | _ => .error (.assertionError
      "Expected exactly one LC_BUILD_VERSION or LC_VERSION_MIN_MACOSX command!")

/-- `_hex_triplet(version)`: unpack `(major, minor, revision)` from the
packed version word. -/
def _hex_triplet (version : Nat) : Nat × Nat × Nat :=
  ((version &&& 0xFF0000) >>> 16, (version &&& 0xFF00) >>> 8, version &&& 0xFF)

/-- `get_macos_sdk_version(filename)`: decode the `sdk` field of the first
slice's version command. -/
def get_macos_sdk_version (binary : MachO) : Except PyError (Nat × Nat × Nat) :=
  match binary.headers.head? with
  | none => .error (.indexError "list index out of range")
  | some header =>
      match _find_version_cmd header with
      | .error e => .error e
      | .ok version_cmd => .ok (_hex_triplet version_cmd.sdk)

/-- The raw minimum-OS word of one slice: `cmd[1].version` for
`LC_VERSION_MIN_MACOSX`, else `cmd[1].minos` (`LC_BUILD_VERSION`). -/
def VersionCmdPayload.minOsWord : VersionCmdPayload → Nat
  | .versionMin vm => vm.version
  | .buildVersion bv => bv.minos

/-- The loop of `macosx_version_min`: collect the raw minimum-OS word of
every slice, propagating the unique-version-command assertion. -/
def collectMinVersions : List MachOHeader → Except PyError (List Nat)
  | [] => .ok []
  | h :: t =>
      match _find_version_cmd h with
      | .error e => .error e
      | .ok cmd =>
          match collectMinVersions t with
          | .error e => .error e
          | .ok rest => .ok (cmd.minOsWord :: rest)

/-- Python tuple comparison `a < b` on version triplets (lexicographic). -/
def tripletLt (a b : Nat × Nat × Nat) : Prop :=
  a.1 < b.1 ∨ (a.1 = b.1 ∧ (a.2.1 < b.2.1 ∨ (a.2.1 = b.2.1 ∧ a.2.2 < b.2.2)))

instance (a b : Nat × Nat × Nat) : Decidable (tripletLt a b) := by
  unfold tripletLt; infer_instance

/-- One step of Python's `min`: keep the current value unless the next
element compares strictly smaller. -/
def pyMinStep (acc x : Nat × Nat × Nat) : Nat × Nat × Nat :=
  if tripletLt x acc then x else acc

/-- Python's `min` over a non-empty list (first element is the initial
accumulator). -/
def pyMinList (t : Nat × Nat × Nat) (ts : List (Nat × Nat × Nat)) : Nat × Nat × Nat :=
  ts.foldl pyMinStep t

/-- `macosx_version_min(filename)`: decode every slice's minimum-OS word
and return the smallest triplet (`min(map(_hex_triplet, versions))`). -/
def macosx_version_min (binary : MachO) : Except PyError (Nat × Nat × Nat) :=
  match collectMinVersions binary.headers with
  | .error e => .error e
  | .ok versions =>
      match versions.map _hex_triplet with
      | [] => .error (.valueError "min() arg is an empty sequence")
      | t :: ts => .ok (pyMinList t ts)

/-- Rewrite the `sdk` field of a version command to `newsdk` (the in-place
mutation `version_cmd[1].sdk = ...`, applied to the version command of the
slice; `_find_version_cmd` has asserted it is unique). -/
def setSdkField (newsdk : Nat) : LoadCommand → LoadCommand
  | .buildVersion bv => .buildVersion { bv with sdk := newsdk }
  | .versionMinMacOS vm => .versionMinMacOS { vm with sdk := newsdk }
  | c => c

/-- The effect of the `sdk` overwrite on a version-command payload. -/
def payloadWithSdk (newsdk : Nat) : VersionCmdPayload → VersionCmdPayload
  | .buildVersion bv => .buildVersion { bv with sdk := newsdk }
  | .versionMin vm => .versionMin { vm with sdk := newsdk }

/-- `set_macos_sdk_version(filename, major, minor, revision)`: validate the
components, then overwrite the SDK version word of the first slice's
version command. -/
def set_macos_sdk_version (binary : MachO) (major minor revision : Int) :
    Except PyError MachO :=
  if ¬ (0 ≤ major ∧ major ≤ 255) then
    .error (.assertionError "Invalid major version value!")
  else if ¬ (0 ≤ minor ∧ minor ≤ 255) then
    .error (.assertionError "Invalid minor version value!")
  else if ¬ (0 ≤ revision ∧ revision ≤ 255) then
    .error (.assertionError "Invalid revision value!")
  else
    match binary.headers with
    | [] => .error (.indexError "list index out of range")
    | header :: rest =>
        match _find_version_cmd header with
        | .error e => .error e
        | .ok _ =>
            let newsdk := major.toNat <<< 16 ||| minor.toNat <<< 8 ||| revision.toNat
            .ok { binary with
                  headers := { header with
                               commands := header.commands.map (setSdkField newsdk) } :: rest }

/-- `_get_arch_string(header)`: map `cputype`/`cpusubtype` (with the
capability bits of the subtype masked off) to a `lipo`-style name; the
`assert False` on an unknown `cputype` is an `AssertionError`. -/
def _get_arch_string (header : MachHeaderFields) : Except PyError String :=
  let cputype := header.cputype
  let cpusubtype := header.cpusubtype &&& 0x0FFFFFFF
  if cputype = 0x01000000 ||| 7 then
    if cpusubtype = 8 then .ok "x86_64h" else .ok "x86_64"
  else if cputype = 0x01000000 ||| 12 then
    if cpusubtype = 2 then .ok "arm64e" else .ok "arm64"
  else if cputype = 7 then
    .ok "i386"
  else
    .error (.assertionError "Unhandled architecture!")

/-- Selects an `LC_CODE_SIGNATURE` command (the signature-presence check). -/
def isSignatureCmd : LoadCommand → Bool
  | .codeSignature _ => true
  | _ => false

/-- Selects an `LC_SEGMENT_64` command whose `segname` is
`__LINKEDIT` (16-byte zero padded). -/
def getLinkeditSeg : LoadCommand → Option SegmentCommand64
  | .segment64 seg => if seg.segname = LINKEDIT_NAME then some seg else none
  | _ => none

/-- Selects an `LC_SYMTAB` command. -/
def getSymtabCmd : LoadCommand → Option SymtabCommand
  | .symtab st => some st
  | _ => none

/-- `math.ceil(a / b)` for integers (exact rational ceiling, `b > 0`). -/
def ceilIntDiv (a b : Int) : Int := -((-a).ediv b)

/-- The in-place size recomputation applied to the last slice's commands:
the symtab command's `strsize` and the `__LINKEDIT` segment's `filesize`
and `vmsize` are rewritten; every other command is untouched. -/
def patchCmd (file_size hoff page_size : Int) : LoadCommand → LoadCommand
  | .symtab st => .symtab { st with strsize := file_size - (hoff + st.stroff) }
  | .segment64 seg =>
      if seg.segname = LINKEDIT_NAME then
        let newFilesize := file_size - (hoff + seg.fileoff)
        .segment64 { seg with
                     filesize := newFilesize,
                     vmsize := ceilIntDiv newFilesize page_size * page_size }
      else .segment64 seg
  | c => c

/-- `fix_exe_for_code_signing(filename)` on the parsed model, with
`file_size` the current (post-append) size of the file.  Operates on the
last slice: checks the no-signature precondition, asserts the unique
`__LINKEDIT` segment and `SYMTAB` command, recomputes their sizes, and for
fat containers rewrites the last entry of the fat header's table. -/
def fix_exe_for_code_signing (file_size : Int) (executable : MachO) :
    Except PyError MachO :=
  match executable.headers.getLast? with
  | none => .error (.indexError "list index out of range")
  | some header =>
    if (header.commands.filter isSignatureCmd).length ≠ 0 then
      .error (.assertionError "Executable contains code signature!")
    else
      match header.commands.filterMap getLinkeditSeg with
      | [_linkedit_seg] =>
        match header.commands.filterMap getSymtabCmd with
        | [_symtab_sec] =>
          match _get_arch_string header.header with
          | .error e => .error e
          | .ok arch =>
            let page_size : Int := if arch.startsWith "arm64" then 0x4000 else 0x1000
            let newHeader :=
              { header with
                commands := header.commands.map (patchCmd file_size header.offset page_size) }
            let patched :=
              { executable with headers := executable.headers.dropLast ++ [newHeader] }
            if executable.fat then
              match executable.fatArchs.getLast? with
              | none => .error (.indexError "list index out of range")
              | some arch_entry =>
                .ok { patched with
                      fatArchs := executable.fatArchs.dropLast ++
                        [{ arch_entry with size := file_size - arch_entry.offset }] }
            else
              .ok patched
        | _ => .error (.assertionError "Expected exactly one SYMTAB section!")
      | _ => .error (.assertionError "Expected exactly one __LINKEDIT segment!")

/-- The loop of `get_binary_architectures`: resolve every slice's
architecture name, propagating the first resolution failure. -/
def archStringList : List MachOHeader → Except PyError (List String)
  | [] => .ok []
  | h :: t =>
      match _get_arch_string h.header with
      | .error e => .error e
      | .ok a =>
          match archStringList t with
          | .error e => .error e
          | .ok rest => .ok (a :: rest)

/-- `get_binary_architectures(filename)` on an already-parsed container:
`(is_fat, archs)`. -/
def get_binary_architectures (executable : MachO) :
    Except PyError (Bool × List String) :=
  match archStringList executable.headers with
  | .error e => .error e
  | .ok archs => .ok (executable.fat, archs)

/-- Outcome of one invocation of the external `lipo` process. -/
structure LipoOutcome where
  retcode : Int
  stdout : String
  stderr : String
deriving DecidableEq, Repr

/-- A `logger.warning` record emitted for a failed external command:
the command line and the captured exit code / stdout / stderr. -/
structure WarningRecord where
  command : List String
  retcode : Int
  stdout : String
  stderr : String
deriving DecidableEq, Repr

/-- `convert_binary_to_thin_arch(filename, thin_arch)`: run `lipo -thin`;
on non-zero exit, log a warning with the command, exit code, stdout and
stderr, and raise `SystemError("lipo failure!")`.  Returns the emitted
warning records alongside the outcome. -/
def convert_binary_to_thin_arch (filename thin_arch : String)
    (lipo : LipoOutcome) : List WarningRecord × Except PyError Unit :=
  let cmd_args := ["lipo", "-thin", thin_arch, filename, "-output", filename]
  if lipo.retcode ≠ 0 then
    ([{ command := cmd_args, retcode := lipo.retcode,
        stdout := lipo.stdout, stderr := lipo.stderr }],
     .error (.systemError "lipo failure!"))
  else
    ([], .ok ())

/-- `binary_to_target_arch(filename, target_arch, display_name)` on an
already-parsed container, with the external `lipo` outcome supplied as a
parameter.  Returns the warning records emitted plus the result. -/
def binary_to_target_arch (executable : MachO) (filename target_arch : String)
    (display_name : Option String) (lipo : LipoOutcome) :
    List WarningRecord × Except PyError Unit :=
  let dn := match display_name with
    | none => filename
    | some s => if s = "" then filename else s
  match get_binary_architectures executable with
  | .error e => ([], .error e)
  | .ok (is_fat, archs) =>
    if target_arch = "universal2" then
      if ¬ is_fat then
        ([], .error (.incompatibleBinaryArchError (dn ++ " is not a fat binary!")))
      else
        ([], .ok ())
    else
      if is_fat then
        if ¬ (target_arch ∈ archs) then
          ([], .error (.incompatibleBinaryArchError
            (dn ++ " does not contain slice for " ++ target_arch ++ "!")))
        else
          convert_binary_to_thin_arch filename target_arch lipo
      else
        if ¬ (target_arch ∈ archs) then
          match archs with
          | [] => ([], .error (.indexError "list index out of range"))
          | arch0 :: _ =>
            ([], .error (.incompatibleBinaryArchError
              (dn ++ " is incompatible with target arch " ++ target_arch ++
                " (has arch: " ++ arch0 ++ ")!")))
        else
          ([], .ok ())

/-- Observer: the unique symtab command of a slice, if exactly one. -/
def headerSymtab (h : MachOHeader) : Option SymtabCommand :=
  match h.commands.filterMap getSymtabCmd with
  | [st] => some st
  | _ => none

/-- Observer: the unique `__LINKEDIT` segment of a slice, if exactly one. -/
def headerLinkedit (h : MachOHeader) : Option SegmentCommand64 :=
  match h.commands.filterMap getLinkeditSeg with
  | [seg] => some seg
  | _ => none

/-- Lexicographic `≤` on version triplets (spec's order for "smallest"). -/
def tripletLe (a b : Nat × Nat × Nat) : Prop :=
  a.1 < b.1 ∨ (a.1 = b.1 ∧ (a.2.1 < b.2.1 ∨ (a.2.1 = b.2.1 ∧ a.2.2 ≤ b.2.2)))

/-- `v` is the smallest multiple of `p` that is `≥ a` (spec wording for the
recomputed `vmsize`). -/
def IsLeastMultipleGe (p a v : Int) : Prop :=
  p ∣ v ∧ a ≤ v ∧ ∀ w : Int, p ∣ w → a ≤ w → v ≤ w

/-- The page size the patcher resolves from the architecture name:
`0x4000` (16 KiB) when the name starts with `"arm64"`, else `0x1000`
(4 KiB). -/
def pageSizeFor (arch : String) : Int :=
  if arch.startsWith "arm64" then 0x4000 else 0x1000

/-! Concrete fixtures used by witnesses and counterexamples. -/

/-- A `__LINKEDIT` segment command fixture. -/
def exSeg : SegmentCommand64 :=
  { segname := LINKEDIT_NAME, fileoff := 0x3000, filesize := 0x500, vmsize := 0x1000 }

/-- A symtab command fixture. -/
def exSt : SymtabCommand := { stroff := 0x3200, strsize := 0x300 }

/-- A version command fixture (macOS 10.13, SDK 10.15). -/
def exVer : VersionMinCommand := { version := 0x0A0D00, sdk := 0x0A0F00 }

/-- An x86_64 slice fixture (thin layout, offset 0). -/
def exThinHeader : MachOHeader :=
  { offset := 0,
    header := { cputype := 0x01000007, cpusubtype := 3 },
    commands := [.versionMinMacOS exVer, .segment64 exSeg, .symtab exSt, .other 42] }

/-- A thin (single-slice) container fixture. -/
def exThin : MachO := { fat := false, headers := [exThinHeader], fatArchs := [] }

/-- An arm64 slice fixture located at offset `0x8000` in a fat file. -/
def exArmHeader : MachOHeader :=
  { offset := 0x8000,
    header := { cputype := 0x0100000C, cpusubtype := 0 },
    commands := [.buildVersion { minos := 0x0B0000, sdk := 0x0C0100 },
                 .segment64 exSeg, .symtab exSt] }

/-- A fat (two-slice) container fixture. -/
def exFat : MachO :=
  { fat := true,
    headers := [exThinHeader, exArmHeader],
    fatArchs := [{ cputype := 0x01000007, cpusubtype := 3, offset := 0x1000,
                   size := 0x7000, align := 12 },
                 { cputype := 0x0100000C, cpusubtype := 0, offset := 0x8000,
                   size := 0x6000, align := 14 }] }

/-- A slice fixture with an unrecognized `cputype` (99) but otherwise
well-formed load commands (one version command, one `__LINKEDIT` segment,
one symtab command, no code signature). -/
def exUnknownArchHeader : MachOHeader :=
  { offset := 0,
    header := { cputype := 99, cpusubtype := 0 },
    commands := [.versionMinMacOS exVer, .segment64 exSeg, .symtab exSt] }

/-- A thin container fixture whose single slice has an unrecognized
architecture. -/
def exUnknownArch : MachO :=
  { fat := false, headers := [exUnknownArchHeader], fatArchs := [] }

/-- A slice fixture carrying a code-signature command. -/
def exSignedHeader : MachOHeader :=
  { offset := 0,
    header := { cputype := 0x01000007, cpusubtype := 3 },
    commands := [.versionMinMacOS exVer, .segment64 exSeg, .symtab exSt,
                 .codeSignature { dataoff := 0x3500, datasize := 0x100 }] }

/-- A thin container fixture whose single slice is signed. -/
def exSigned : MachO := { fat := false, headers := [exSignedHeader], fatArchs := [] }

/-! Helper lemmas. -/

theorem shiftRight_lor_distrib (a b k : Nat) :
    (a ||| b) >>> k = (a >>> k) ||| (b >>> k) := by
  apply Nat.eq_of_testBit_eq
  intro i
  simp [Nat.testBit_shiftRight, Nat.testBit_lor]

theorem shiftRight_land_distrib (a b k : Nat) :
    (a &&& b) >>> k = (a >>> k) &&& (b >>> k) := by
  apply Nat.eq_of_testBit_eq
  intro i
  simp [Nat.testBit_shiftRight, Nat.testBit_land]

theorem shiftLeft_lor_eq_add (a b k : Nat) (hb : b < 2 ^ k) :
    (a <<< k) ||| b = a * 2 ^ k + b := by
  have hdiv : ((a <<< k) ||| b) / 2 ^ k = a := by
    rw [← Nat.shiftRight_eq_div_pow, shiftRight_lor_distrib, Nat.shiftLeft_shiftRight,
      Nat.shiftRight_eq_div_pow, Nat.div_eq_of_lt hb, Nat.or_zero]
  have hmod : ((a <<< k) ||| b) % 2 ^ k = b := by
    have h1 : ((a <<< k) ||| b) &&& (2 ^ k - 1) =
        ((a <<< k) &&& (2 ^ k - 1)) ||| (b &&& (2 ^ k - 1)) :=
      Nat.and_distrib_right _ _ _
    have h2 : (a <<< k) &&& (2 ^ k - 1) = 0 := by
      rw [Nat.and_pow_two_sub_one_eq_mod, Nat.shiftLeft_eq, Nat.mul_mod_left]
    have h3 : b &&& (2 ^ k - 1) = b := by
      rw [Nat.and_pow_two_sub_one_eq_mod, Nat.mod_eq_of_lt hb]
    rw [← Nat.and_pow_two_sub_one_eq_mod, h1, h2, h3, Nat.zero_or]
  calc (a <<< k) ||| b
      = 2 ^ k * (((a <<< k) ||| b) / 2 ^ k) + ((a <<< k) ||| b) % 2 ^ k :=
        (Nat.div_add_mod _ _).symm
    _ = a * 2 ^ k + b := by rw [hdiv, hmod, Nat.mul_comm]

theorem hex_triplet_arith (v : Nat) :
    _hex_triplet v = (v / 2 ^ 16 % 2 ^ 8, v / 2 ^ 8 % 2 ^ 8, v % 2 ^ 8) := by
  unfold _hex_triplet
  have hmask : (0xFF : Nat) = 2 ^ 8 - 1 := by norm_num
  have h1 : (v &&& 0xFF0000) >>> 16 = v / 2 ^ 16 % 2 ^ 8 := by
    rw [shiftRight_land_distrib]
    have : (0xFF0000 : Nat) >>> 16 = 0xFF := by decide
    rw [this, hmask, Nat.and_pow_two_sub_one_eq_mod, Nat.shiftRight_eq_div_pow]
  have h2 : (v &&& 0xFF00) >>> 8 = v / 2 ^ 8 % 2 ^ 8 := by
    rw [shiftRight_land_distrib]
    have : (0xFF00 : Nat) >>> 8 = 0xFF := by decide
    rw [this, hmask, Nat.and_pow_two_sub_one_eq_mod, Nat.shiftRight_eq_div_pow]
  have h3 : v &&& 0xFF = v % 2 ^ 8 := by
    rw [hmask, Nat.and_pow_two_sub_one_eq_mod]
  rw [h1, h2, h3]

theorem hex_triplet_encode (major minor revision : Nat)
    (hM : major ≤ 255) (hN : minor ≤ 255) (hR : revision ≤ 255) :
    _hex_triplet (major <<< 16 ||| minor <<< 8 ||| revision) =
      (major, minor, revision) := by
  have hinner : minor <<< 8 ||| revision = minor * 2 ^ 8 + revision :=
    shiftLeft_lor_eq_add minor revision 8 (by omega)
  have houter : major <<< 16 ||| (minor * 2 ^ 8 + revision) =
      major * 2 ^ 16 + (minor * 2 ^ 8 + revision) :=
    shiftLeft_lor_eq_add major (minor * 2 ^ 8 + revision) 16 (by norm_num; omega)
  rw [Nat.lor_assoc, hinner, houter, hex_triplet_arith]
  refine Prod.ext ?_ (Prod.ext ?_ ?_) <;> simp only [] <;> norm_num <;> omega

theorem tripletLt_le {a b : Nat × Nat × Nat} (h : tripletLt a b) : tripletLe a b := by
  obtain ⟨a1, a2, a3⟩ := a
  obtain ⟨b1, b2, b3⟩ := b
  simp only [tripletLt, tripletLe] at *
  omega

theorem tripletLe_refl (a : Nat × Nat × Nat) : tripletLe a a := by
  obtain ⟨a1, a2, a3⟩ := a
  simp [tripletLe]

theorem tripletLe_of_not_lt {a b : Nat × Nat × Nat} (h : ¬ tripletLt a b) :
    tripletLe b a := by
  obtain ⟨a1, a2, a3⟩ := a
  obtain ⟨b1, b2, b3⟩ := b
  simp only [tripletLt, tripletLe] at *
  omega

theorem tripletLe_trans {a b c : Nat × Nat × Nat}
    (h1 : tripletLe a b) (h2 : tripletLe b c) : tripletLe a c := by
  obtain ⟨a1, a2, a3⟩ := a
  obtain ⟨b1, b2, b3⟩ := b
  obtain ⟨c1, c2, c3⟩ := c
  simp only [tripletLe] at *
  omega

theorem pyMinStep_eq_or (acc x : Nat × Nat × Nat) :
    pyMinStep acc x = acc ∨ pyMinStep acc x = x := by
  unfold pyMinStep
  split
  · exact Or.inr rfl
  · exact Or.inl rfl

theorem pyMinStep_le_left (acc x : Nat × Nat × Nat) :
    tripletLe (pyMinStep acc x) acc := by
  unfold pyMinStep
  split
  · exact tripletLt_le (by assumption)
  · exact tripletLe_refl acc

theorem pyMinStep_le_right (acc x : Nat × Nat × Nat) :
    tripletLe (pyMinStep acc x) x := by
  unfold pyMinStep
  split
  · exact tripletLe_refl x
  · exact tripletLe_of_not_lt (by assumption)

theorem pyMinList_mem (ts : List (Nat × Nat × Nat)) :
    ∀ acc, pyMinList acc ts ∈ acc :: ts := by
  induction ts with
  | nil => intro acc; simp [pyMinList]
  | cons x ts ih =>
      intro acc
      have h := ih (pyMinStep acc x)
      rcases pyMinStep_eq_or acc x with he | he <;>
        · rw [he] at h
          simp only [pyMinList, List.foldl_cons] at *
          rw [he]
          simp only [List.mem_cons] at h ⊢
          tauto

theorem pyMinList_le (ts : List (Nat × Nat × Nat)) :
    ∀ acc u, u ∈ acc :: ts → tripletLe (pyMinList acc ts) u := by
  induction ts with
  | nil =>
      intro acc u hu
      simp only [List.mem_cons, List.not_mem_nil, or_false] at hu
      rw [hu]
      exact tripletLe_refl acc
  | cons x ts ih =>
      intro acc u hu
      simp only [pyMinList, List.foldl_cons]
      simp only [List.mem_cons] at hu
      rcases hu with hu | hu | hu
      · exact tripletLe_trans (ih (pyMinStep acc x) (pyMinStep acc x) (by simp))
          (by rw [hu]; exact pyMinStep_le_left acc x)
      · exact tripletLe_trans (ih (pyMinStep acc x) (pyMinStep acc x) (by simp))
          (by rw [hu]; exact pyMinStep_le_right acc x)
      · exact ih (pyMinStep acc x) u (by simp [hu])

theorem ceilIntDiv_least (a p : Int) (hp : 0 < p) :
    IsLeastMultipleGe p a (ceilIntDiv a p * p) := by
  have hpne : p ≠ 0 := ne_of_gt hp
  have hdm : p * ((-a).ediv p) + (-a).emod p = -a := Int.ediv_add_emod (-a) p
  have hr0 : 0 ≤ (-a).emod p := Int.emod_nonneg (-a) hpne
  have hrp : (-a).emod p < p := Int.emod_lt_of_pos (-a) hp
  have hval : ceilIntDiv a p * p = a + (-a).emod p := by
    unfold ceilIntDiv
    nlinarith [hdm]
  refine ⟨⟨ceilIntDiv a p, by rw [mul_comm]⟩, by omega, ?_⟩
  intro w hdvd hw
  obtain ⟨t, ht⟩ := hdvd
  by_contra hlt
  push_neg at hlt
  have h1 : p * t < ceilIntDiv a p * p := ht ▸ hlt
  have h2 : t < ceilIntDiv a p := by
    have := (mul_lt_mul_right hp).mp (by rw [mul_comm p t] at h1; exact h1)
    exact this
  have h3 : t ≤ ceilIntDiv a p - 1 := by omega
  have h4 : p * t ≤ p * (ceilIntDiv a p - 1) :=
    mul_le_mul_of_nonneg_left h3 (le_of_lt hp)
  have h5 : p * (ceilIntDiv a p - 1) = ceilIntDiv a p * p - p := by ring
  omega

theorem headerLinkedit_eq_iff (h : MachOHeader) (seg : SegmentCommand64) :
    headerLinkedit h = some seg ↔ h.commands.filterMap getLinkeditSeg = [seg] := by
  unfold headerLinkedit
  constructor
  · intro he
    rcases hl : h.commands.filterMap getLinkeditSeg with _ | ⟨a, _ | ⟨b, t⟩⟩ <;>
      rw [hl] at he <;> simp_all
  · intro he
    rw [he]

theorem headerSymtab_eq_iff (h : MachOHeader) (st : SymtabCommand) :
    headerSymtab h = some st ↔ h.commands.filterMap getSymtabCmd = [st] := by
  unfold headerSymtab
  constructor
  · intro he
    rcases hl : h.commands.filterMap getSymtabCmd with _ | ⟨a, _ | ⟨b, t⟩⟩ <;>
      rw [hl] at he <;> simp_all
  · intro he
    rw [he]

theorem getSymtabCmd_patchCmd (F o p : Int) (c : LoadCommand) :
    getSymtabCmd (patchCmd F o p c) =
      (getSymtabCmd c).map (fun st => { st with strsize := F - (o + st.stroff) }) := by
  cases c with
  | segment64 seg =>
      simp only [patchCmd]
      split <;> rfl
  | _ => rfl

theorem getLinkeditSeg_patchCmd (F o p : Int) (c : LoadCommand) :
    getLinkeditSeg (patchCmd F o p c) =
      (getLinkeditSeg c).map (fun seg =>
        { seg with filesize := F - (o + seg.fileoff),
                   vmsize := ceilIntDiv (F - (o + seg.fileoff)) p * p }) := by
  cases c with
  | segment64 seg =>
      simp only [patchCmd, getLinkeditSeg]
      by_cases hname : seg.segname = LINKEDIT_NAME
      · simp [hname, getLinkeditSeg]
      · simp [hname, getLinkeditSeg]
  | _ => rfl

theorem headerSymtab_map_patch (F p : Int) (h : MachOHeader) :
    headerSymtab { h with commands := h.commands.map (patchCmd F h.offset p) } =
      (headerSymtab h).map (fun st => { st with strsize := F - (h.offset + st.stroff) }) := by
  unfold headerSymtab
  simp only [List.filterMap_map]
  have hcomp : (getSymtabCmd ∘ patchCmd F h.offset p) =
      fun c => (getSymtabCmd c).map (fun st => { st with strsize := F - (h.offset + st.stroff) }) := by
    funext c
    exact getSymtabCmd_patchCmd F h.offset p c
  rw [hcomp, ← List.map_filterMap]
  rcases hl : h.commands.filterMap getSymtabCmd with _ | ⟨a, _ | ⟨b, t⟩⟩ <;> simp

theorem headerLinkedit_map_patch (F p : Int) (h : MachOHeader) :
    headerLinkedit { h with commands := h.commands.map (patchCmd F h.offset p) } =
      (headerLinkedit h).map (fun seg =>
        { seg with filesize := F - (h.offset + seg.fileoff),
                   vmsize := ceilIntDiv (F - (h.offset + seg.fileoff)) p * p }) := by
  unfold headerLinkedit
  simp only [List.filterMap_map]
  have hcomp : (getLinkeditSeg ∘ patchCmd F h.offset p) =
      fun c => (getLinkeditSeg c).map (fun seg =>
        { seg with filesize := F - (h.offset + seg.fileoff),
                   vmsize := ceilIntDiv (F - (h.offset + seg.fileoff)) p * p }) := by
    funext c
    exact getLinkeditSeg_patchCmd F h.offset p c
  rw [hcomp, ← List.map_filterMap]
  rcases hl : h.commands.filterMap getLinkeditSeg with _ | ⟨a, _ | ⟨b, t⟩⟩ <;> simp

theorem arch_string_error_msg (hd : MachHeaderFields) (e : PyError)
    (he : _get_arch_string hd = .error e) :
    e = .assertionError "Unhandled architecture!" := by
  unfold _get_arch_string at he
  dsimp only at he
  split at he
  · split at he <;> simp_all
  · split at he
    · split at he <;> simp_all
    · split at he <;> simp_all

theorem fix_exe_success_shape
    (F : Int) (m : MachO) (hs : List MachOHeader) (h : MachOHeader)
    (seg : SegmentCommand64) (st : SymtabCommand) (arch : String)
    (hlast : m.headers = hs ++ [h])
    (hnosig : h.commands.filter isSignatureCmd = [])
    (hseg : headerLinkedit h = some seg)
    (hst : headerSymtab h = some st)
    (harch : _get_arch_string h.header = .ok arch)
    (hfa : m.fat = true → m.fatArchs ≠ []) :
    ∃ m2 : MachO,
      fix_exe_for_code_signing F m = .ok m2 ∧
      m2.headers = hs ++ [{ h with commands := h.commands.map (patchCmd F h.offset (pageSizeFor arch)) }] ∧
      m2.fat = m.fat ∧
      (m.fat = false → m2.fatArchs = m.fatArchs) ∧
      (∀ pre a, m.fatArchs = pre ++ [a] → m.fat = true →
        m2.fatArchs = pre ++ [{ a with size := F - a.offset }]) := by
  have hsegl : h.commands.filterMap getLinkeditSeg = [seg] :=
    (headerLinkedit_eq_iff h seg).mp hseg
  have hstl : h.commands.filterMap getSymtabCmd = [st] :=
    (headerSymtab_eq_iff h st).mp hst
  unfold fix_exe_for_code_signing
  rw [hlast]
  rw [List.getLast?_concat]
  simp only [hnosig, List.length_nil, ne_eq, not_true_eq_false, if_false,
    if_neg (by simp : ¬ (0 ≠ 0)), hsegl, hstl, harch]
  cases hm : m.fat with
  | false =>
      refine ⟨_, rfl, ?_, ?_, ?_, ?_⟩
      · simp [List.dropLast_concat, pageSizeFor]
      · simp [hm]
      · intro _; rfl
      · intro pre a _ hcontra
        simp [hm] at hcontra
  | true =>
      rcases List.eq_nil_or_concat m.fatArchs with hnil | ⟨pre0, a0, hdec0⟩
      · exact absurd hnil (hfa hm)
      · have hdec : m.fatArchs = pre0 ++ [a0] := by
          rw [hdec0, List.concat_eq_append]
        rw [hdec, List.getLast?_concat]
        refine ⟨_, rfl, ?_, ?_, ?_, ?_⟩
        · simp [List.dropLast_concat, pageSizeFor]
        · simp [hm]
        · intro hcontra; simp [hm] at hcontra
        · intro pre a hpa _
          have hpre : pre = pre0 ∧ a = a0 := by
            constructor
            · have := congrArg List.dropLast hpa
              simpa [List.dropLast_concat] using this.symm
            · have := congrArg List.getLast? hpa
              simpa [List.getLast?_concat] using this.symm
          simp [List.dropLast_concat, hpre.1, hpre.2]

theorem getVersionCmd_setSdkField (n : Nat) (c : LoadCommand) :
    getVersionCmd (setSdkField n c) = (getVersionCmd c).map (payloadWithSdk n) := by
  cases c <;> rfl

theorem find_version_cmd_setSdk (n : Nat) (h : MachOHeader) :
    _find_version_cmd { h with commands := h.commands.map (setSdkField n) } =
      (_find_version_cmd h).map (payloadWithSdk n) := by
  unfold _find_version_cmd
  simp only [List.filterMap_map]
  have hcomp : getVersionCmd ∘ setSdkField n =
      fun c => (getVersionCmd c).map (payloadWithSdk n) :=
    funext (getVersionCmd_setSdkField n)
  rw [hcomp, ← List.map_filterMap]
  rcases h.commands.filterMap getVersionCmd with _ | ⟨a, _ | ⟨b, t⟩⟩ <;> simp [Except.map]

theorem payloadWithSdk_sdk (n : Nat) (c : VersionCmdPayload) :
    (payloadWithSdk n c).sdk = n := by
  cases c <;> rfl

/-- C6: the architecture resolver, after masking the capability-flag top
bits of `cpusubtype` (reducing it modulo `2^28`), is the total
deterministic function of the table: x86_64-family `cputype`
(`0x01000007`) with masked subtype 8 yields `"x86_64h"`, any other subtype
`"x86_64"`; arm64-family `cputype` (`0x0100000C`) with masked subtype 2
yields `"arm64e"`, any other subtype `"arm64"`; i386-family `cputype` (7)
yields `"i386"` for any subtype; and every other `cputype` is a fatal
"Unhandled architecture!" assertion error, never a silently returned
default. -/
theorem arch_resolver_table (hd : MachHeaderFields) :
    _get_arch_string hd =
      if hd.cputype = 0x01000007 then
        (if hd.cpusubtype % 2 ^ 28 = 8 then .ok "x86_64h" else .ok "x86_64")
      else if hd.cputype = 0x0100000C then
        (if hd.cpusubtype % 2 ^ 28 = 2 then .ok "arm64e" else .ok "arm64")
      else if hd.cputype = 7 then
        .ok "i386"
      else
        .error (.assertionError "Unhandled architecture!") := by
  have hmask : hd.cpusubtype &&& 0x0FFFFFFF = hd.cpusubtype % 2 ^ 28 := by
    have h28 := Nat.and_pow_two_sub_one_eq_mod hd.cpusubtype 28
    norm_num at h28 ⊢
    exact h28
  unfold _get_arch_string
  dsimp only
  rw [hmask,
    show (0x01000000 ||| 7 : Nat) = 0x01000007 by decide,
    show (0x01000000 ||| 12 : Nat) = 0x0100000C by decide]

/-- C10: the version-triplet decoder reads only the low 24 bits of the
stored version word: major is bits 16–23 (`v / 2^16 % 2^8`), minor is
bits 8–15, revision is bits 0–7, so any two stored values that agree
modulo `2^24` decode identically, and a stored major version above 255 is
reported reduced modulo 256. -/
theorem hex_triplet_low24 :
    (∀ v w : Nat, v % 2 ^ 24 = w % 2 ^ 24 → _hex_triplet v = _hex_triplet w) ∧
    (∀ v : Nat, _hex_triplet v = (v / 2 ^ 16 % 2 ^ 8, v / 2 ^ 8 % 2 ^ 8, v % 2 ^ 8)) := by
  constructor
  · intro v w hvw
    rw [hex_triplet_arith, hex_triplet_arith]
    refine Prod.ext ?_ (Prod.ext ?_ ?_) <;> dsimp only <;> omega
  · exact hex_triplet_arith

/-- Witness for C10: two stored words differing only in bits 24–31 decode
to the same triplet. -/
theorem hex_triplet_low24_witness :
    _hex_triplet 0x01345678 = _hex_triplet 0xFF345678 :=
  hex_triplet_low24.1 0x01345678 0xFF345678 (by norm_num)

/-- C4: for components within [0, 255], writing the SDK version with
`set_macos_sdk_version` and reading it back with `get_macos_sdk_version`
returns exactly the written triplet: decoding the packed 24-bit field
`major <<< 16 ||| minor <<< 8 ||| revision` is a left inverse of encoding
on in-range triplets. -/
theorem sdk_version_roundtrip (binary binary2 : MachO) (M N R : Nat)
    (hM : M ≤ 255) (hN : N ≤ 255) (hR : R ≤ 255)
    (hset : set_macos_sdk_version binary (M : Int) (N : Int) (R : Int) = .ok binary2) :
    get_macos_sdk_version binary2 = .ok (M, N, R) := by
  unfold set_macos_sdk_version at hset
  rw [if_neg (not_not_intro ⟨Int.ofNat_nonneg M, by exact_mod_cast hM⟩),
    if_neg (not_not_intro ⟨Int.ofNat_nonneg N, by exact_mod_cast hN⟩),
    if_neg (not_not_intro ⟨Int.ofNat_nonneg R, by exact_mod_cast hR⟩)] at hset
  split at hset
  · simp at hset
  · next header rest =>
      split at hset
      · simp at hset
      · next c hfv =>
          simp only [Except.ok.injEq] at hset
          subst hset
          have htn : ((M : Int).toNat <<< 16 ||| (N : Int).toNat <<< 8 ||| (R : Int).toNat) =
              (M <<< 16 ||| N <<< 8 ||| R) := rfl
          unfold get_macos_sdk_version
          simp only [List.head?_cons]
          rw [find_version_cmd_setSdk, hfv]
          simp only [Except.map]
          rw [payloadWithSdk_sdk, htn, hex_triplet_encode M N R hM hN hR]

/-- Witness for C4: a concrete round trip through the thin fixture. -/
theorem sdk_version_roundtrip_witness :
    get_macos_sdk_version
      { exThin with
        headers := [{ exThinHeader with
          commands := exThinHeader.commands.map (setSdkField 0x0B0203) }] } =
      .ok (11, 2, 3) :=
  sdk_version_roundtrip exThin _ 11 2 3 (by norm_num) (by norm_num) (by norm_num) rfl

/-- C8: `set_macos_sdk_version` fails with an assertion (validation) error
whenever any of the three components lies outside [0, 255]; the failing
call returns an error and produces no modified container (the validation
precedes any mutation or write-back). -/
theorem set_sdk_rejects_out_of_range (binary : MachO) (major minor revision : Int)
    (h : ¬ (0 ≤ major ∧ major ≤ 255) ∨ ¬ (0 ≤ minor ∧ minor ≤ 255) ∨
         ¬ (0 ≤ revision ∧ revision ≤ 255)) :
    ∃ msg, set_macos_sdk_version binary major minor revision =
      .error (.assertionError msg) := by
  unfold set_macos_sdk_version
  by_cases h1 : 0 ≤ major ∧ major ≤ 255
  · rw [if_neg (not_not_intro h1)]
    by_cases h2 : 0 ≤ minor ∧ minor ≤ 255
    · rw [if_neg (not_not_intro h2)]
      by_cases h3 : 0 ≤ revision ∧ revision ≤ 255
      · tauto
      · rw [if_pos h3]
        exact ⟨_, rfl⟩
    · rw [if_pos h2]
      exact ⟨_, rfl⟩
  · rw [if_pos h1]
    exact ⟨_, rfl⟩

/-- Witness for C8: `(256, 0, 0)` and `(0, -1, 0)` are rejected on the
thin fixture. -/
theorem set_sdk_rejects_out_of_range_witness :
    (∃ msg, set_macos_sdk_version exThin 256 0 0 = .error (.assertionError msg)) ∧
    (∃ msg, set_macos_sdk_version exThin 0 (-1) 0 = .error (.assertionError msg)) :=
  ⟨set_sdk_rejects_out_of_range exThin 256 0 0 (by norm_num),
   set_sdk_rejects_out_of_range exThin 0 (-1) 0 (by norm_num)⟩

/-- C5: `macosx_version_min` decodes the minimum-OS word of every slice
(the `version` field of an `LC_VERSION_MIN_MACOSX` command or the `minos`
field of an `LC_BUILD_VERSION` command, whichever the slice has — this is
what `collectMinVersions` gathers) and returns the lexicographically
smallest decoded triplet across all slices. -/
theorem macosx_version_min_least (binary : MachO) (versions : List Nat)
    (t : Nat × Nat × Nat)
    (hv : collectMinVersions binary.headers = .ok versions)
    (ht : macosx_version_min binary = .ok t) :
    t ∈ versions.map _hex_triplet ∧
      ∀ u ∈ versions.map _hex_triplet, tripletLe t u := by
  unfold macosx_version_min at ht
  rw [hv] at ht
  dsimp only at ht
  cases hm : versions.map _hex_triplet with
  | nil =>
      rw [hm] at ht
      simp at ht
  | cons t0 ts =>
      rw [hm] at ht
      simp only [Except.ok.injEq] at ht
      subst ht
      exact ⟨pyMinList_mem ts t0, fun u hu => pyMinList_le ts t0 u hu⟩

/-- Witness for C5: on the fat fixture the slices decode to `(10, 13, 0)`
and `(11, 0, 0)`; the returned floor version is `(10, 13, 0)`. -/
theorem macosx_version_min_least_witness :
    (10, 13, 0) ∈ ([0x0A0D00, 0x0B0000] : List Nat).map _hex_triplet ∧
      ∀ u ∈ ([0x0A0D00, 0x0B0000] : List Nat).map _hex_triplet, tripletLe (10, 13, 0) u :=
  macosx_version_min_least exFat [0x0A0D00, 0x0B0000] (10, 13, 0) rfl rfl

/-- C7: requiring the target architecture `"universal2"` succeeds exactly
when the container is fat, and fails with `IncompatibleBinaryArchError`
for every thin input, whatever single architecture the thin input holds. -/
theorem universal2_iff_fat (m : MachO) (filename : String)
    (display_name : Option String) (lipo : LipoOutcome) (archs : List String)
    (harchs : archStringList m.headers = .ok archs) :
    ((binary_to_target_arch m filename "universal2" display_name lipo).2 = .ok () ↔
      m.fat = true) ∧
    (m.fat = false →
      ∃ msg, (binary_to_target_arch m filename "universal2" display_name lipo).2 =
        .error (.incompatibleBinaryArchError msg)) := by
  unfold binary_to_target_arch get_binary_architectures
  rw [harchs]
  dsimp only
  rw [if_pos rfl]
  cases hm : m.fat with
  | true =>
      constructor
      · simp
      · intro hc
        exact absurd hc (by simp)
  | false =>
      constructor
      · simp
      · intro _
        exact ⟨_, rfl⟩

/-- Witness for C7: the thin fixture is rejected with an
incompatible-architecture error even though its slice resolves fine. -/
theorem universal2_iff_fat_witness :
    ((binary_to_target_arch exThin "f" "universal2" none
        { retcode := 0, stdout := "", stderr := "" }).2 = .ok () ↔ exThin.fat = true) ∧
    (exThin.fat = false →
      ∃ msg, (binary_to_target_arch exThin "f" "universal2" none
        { retcode := 0, stdout := "", stderr := "" }).2 =
        .error (.incompatibleBinaryArchError msg)) :=
  universal2_iff_fat exThin "f" none { retcode := 0, stdout := "", stderr := "" }
    ["x86_64"] rfl

/-- C9 (amended): when the gate requires thinning and the external `lipo`
collaborator exits non-zero, the surfaced exception is the fixed
`SystemError("lipo failure!")`, which carries none of the invocation
details; the command line, exit code, stdout and stderr are emitted as a
logger warning record instead. -/
theorem lipo_failure_surfaces (m : MachO) (filename target_arch : String)
    (display_name : Option String) (lipo : LipoOutcome) (archs : List String)
    (harchs : archStringList m.headers = .ok archs)
    (hfat : m.fat = true)
    (hne : target_arch ≠ "universal2")
    (hmem : target_arch ∈ archs)
    (hfail : lipo.retcode ≠ 0) :
    binary_to_target_arch m filename target_arch display_name lipo =
      ([{ command := ["lipo", "-thin", target_arch, filename, "-output", filename],
          retcode := lipo.retcode, stdout := lipo.stdout, stderr := lipo.stderr }],
       .error (.systemError "lipo failure!")) := by
  unfold binary_to_target_arch get_binary_architectures
  rw [harchs]
  dsimp only
  rw [if_neg hne]
  simp only [hfat, if_pos]
  rw [if_neg (not_not_intro hmem)]
  unfold convert_binary_to_thin_arch
  rw [if_pos hfail]

/-- Counterexample for C9: two thinning failures with different exit codes
and captured output surface the *same* error value, so the surfaced error
cannot carry the exit code, stdout or stderr (it is the constant
`SystemError("lipo failure!")`). -/
theorem lipo_error_payload_counterexample :
    (binary_to_target_arch exFat "b" "x86_64" none
        { retcode := 1, stdout := "out-one", stderr := "err-one" }).2 =
      .error (.systemError "lipo failure!") ∧
    (binary_to_target_arch exFat "b" "x86_64" none
        { retcode := 77, stdout := "out-two", stderr := "err-two" }).2 =
      .error (.systemError "lipo failure!") :=
  ⟨rfl, rfl⟩

/-- Witness for C9 (amended): a concrete failed thinning run. -/
theorem lipo_failure_surfaces_witness :
    binary_to_target_arch exFat "b" "arm64" none
        { retcode := 3, stdout := "so", stderr := "se" } =
      ([{ command := ["lipo", "-thin", "arm64", "b", "-output", "b"],
          retcode := 3, stdout := "so", stderr := "se" }],
       .error (.systemError "lipo failure!")) :=
  lipo_failure_surfaces exFat "b" "arm64" none
    { retcode := 3, stdout := "so", stderr := "se" } ["x86_64", "arm64"]
    rfl rfl (by decide) (by decide) (by decide)

/-- C1: for a thin binary whose single slice has no code-signature
command, after `fix_exe_for_code_signing` runs with final file size `F`
the string table size equals `F` minus the string table offset, the
`__LINKEDIT` segment's file size equals `F` minus its file offset, and
its vm size is the smallest multiple of the resolved page size (16 KiB if
the resolved architecture name starts with `"arm64"`, else 4 KiB) that is
at least the new file size. -/
theorem fix_exe_thin_sizes (F : Int) (m : MachO) (h : MachOHeader)
    (seg : SegmentCommand64) (st : SymtabCommand) (arch : String)
    (hfat : m.fat = false)
    (hthin : m.headers = [h]) (hoff : h.offset = 0)
    (hnosig : h.commands.filter isSignatureCmd = [])
    (hseg : headerLinkedit h = some seg)
    (hst : headerSymtab h = some st)
    (harch : _get_arch_string h.header = .ok arch) :
    ∃ (m2 : MachO) (h2 : MachOHeader) (vm : Int),
      fix_exe_for_code_signing F m = .ok m2 ∧
      m2.headers = [h2] ∧
      headerSymtab h2 = some { stroff := st.stroff, strsize := F - st.stroff } ∧
      headerLinkedit h2 = some { segname := seg.segname, fileoff := seg.fileoff,
                                 filesize := F - seg.fileoff, vmsize := vm } ∧
      IsLeastMultipleGe (pageSizeFor arch) (F - seg.fileoff) vm := by
  obtain ⟨m2, hfix, hheaders, _, _, _⟩ :=
    fix_exe_success_shape F m [] h seg st arch (by simpa using hthin) hnosig hseg hst harch
      (by intro hc; rw [hfat] at hc; cases hc)
  refine ⟨m2, _, ceilIntDiv (F - seg.fileoff) (pageSizeFor arch) * pageSizeFor arch,
    hfix, by simpa using hheaders, ?_, ?_, ?_⟩
  · have hmap := headerSymtab_map_patch F (pageSizeFor arch) h
    rw [hst] at hmap
    rw [hmap]
    simp [hoff]
  · have hmap := headerLinkedit_map_patch F (pageSizeFor arch) h
    rw [hseg] at hmap
    rw [hmap]
    simp [hoff]
  · have hp : 0 < pageSizeFor arch := by
      unfold pageSizeFor
      split <;> norm_num
    exact ceilIntDiv_least (F - seg.fileoff) (pageSizeFor arch) hp

/-- Witness for C1: the thin fixture patched at final size `0x5000`. -/
theorem fix_exe_thin_sizes_witness :
    ∃ (m2 : MachO) (h2 : MachOHeader) (vm : Int),
      fix_exe_for_code_signing 0x5000 exThin = .ok m2 ∧
      m2.headers = [h2] ∧
      headerSymtab h2 = some { stroff := exSt.stroff, strsize := 0x5000 - exSt.stroff } ∧
      headerLinkedit h2 = some { segname := exSeg.segname, fileoff := exSeg.fileoff,
                                 filesize := 0x5000 - exSeg.fileoff, vmsize := vm } ∧
      IsLeastMultipleGe (pageSizeFor "x86_64") (0x5000 - exSeg.fileoff) vm :=
  fix_exe_thin_sizes 0x5000 exThin exThinHeader exSeg exSt "x86_64"
    rfl rfl rfl rfl rfl rfl rfl

/-- C2: for a fat binary, after `fix_exe_for_code_signing` runs with final
file size `F`, the fat header's per-slice size entry for the last slice
equals `F` minus that slice's offset, and every other slice's table entry
is byte-identical to its value before the patch. -/
theorem fix_exe_fat_table (F : Int) (m : MachO) (hs : List MachOHeader)
    (h : MachOHeader) (seg : SegmentCommand64) (st : SymtabCommand) (arch : String)
    (pre : List FatArch) (a : FatArch)
    (hfat : m.fat = true)
    (hlast : m.headers = hs ++ [h])
    (hnosig : h.commands.filter isSignatureCmd = [])
    (hseg : headerLinkedit h = some seg)
    (hst : headerSymtab h = some st)
    (harch : _get_arch_string h.header = .ok arch)
    (harchs : m.fatArchs = pre ++ [a]) :
    ∃ m2, fix_exe_for_code_signing F m = .ok m2 ∧
      m2.fatArchs = pre ++ [{ cputype := a.cputype, cpusubtype := a.cpusubtype,
                              offset := a.offset, size := F - a.offset,
                              align := a.align }] := by
  obtain ⟨m2, hfix, _, _, _, hfatarchs⟩ :=
    fix_exe_success_shape F m hs h seg st arch hlast hnosig hseg hst harch
      (by intro _; rw [harchs]; simp)
  exact ⟨m2, hfix, hfatarchs pre a harchs hfat⟩

/-- Witness for C2: the fat fixture patched at final size `0x9000`; the
first table entry is untouched and the second becomes `0x9000 - 0x8000`. -/
theorem fix_exe_fat_table_witness :
    ∃ m2, fix_exe_for_code_signing 0x9000 exFat = .ok m2 ∧
      m2.fatArchs = [{ cputype := 0x01000007, cpusubtype := 3, offset := 0x1000,
                       size := 0x7000, align := 12 }] ++
        [{ cputype := 0x0100000C, cpusubtype := 0, offset := 0x8000,
           size := 0x9000 - 0x8000, align := 14 }] :=
  fix_exe_fat_table 0x9000 exFat [exThinHeader] exArmHeader exSeg exSt "arm64"
    [{ cputype := 0x01000007, cpusubtype := 3, offset := 0x1000,
       size := 0x7000, align := 12 }]
    { cputype := 0x0100000C, cpusubtype := 0, offset := 0x8000,
      size := 0x6000, align := 14 }
    rfl rfl rfl rfl rfl rfl rfl

theorem filter_sig_eq_nil_iff (h : MachOHeader) :
    h.commands.filter isSignatureCmd = [] ↔
      ∀ cs, LoadCommand.codeSignature cs ∉ h.commands := by
  rw [List.filter_eq_nil_iff]
  constructor
  · intro hall cs hmem
    exact absurd (hall _ hmem) (by simp [isSignatureCmd])
  · intro hno c hc
    cases c with
    | codeSignature cs => exact absurd hc (hno cs)
    | segment64 seg => simp [isSignatureCmd]
    | symtab st => simp [isSignatureCmd]
    | buildVersion bv => simp [isSignatureCmd]
    | versionMinMacOS vm => simp [isSignatureCmd]
    | other n => simp [isSignatureCmd]

/-- C3 (amended): `fix_exe_for_code_signing` fails with the signature
precondition error exactly when the last slice carries an
`LC_CODE_SIGNATURE` command; when the last slice carries no signature, the
structural invariants hold (one `__LINKEDIT` segment, one symtab command,
and — for fat files — a non-empty fat arch table), *and* the slice's
architecture is one the resolver handles, the operation succeeds. -/
theorem fix_exe_precondition_amended (F : Int) (m : MachO)
    (hs : List MachOHeader) (h : MachOHeader)
    (hlast : m.headers = hs ++ [h]) :
    (fix_exe_for_code_signing F m =
        .error (.assertionError "Executable contains code signature!") ↔
      ∃ cs, LoadCommand.codeSignature cs ∈ h.commands) ∧
    (∀ seg st arch, h.commands.filter isSignatureCmd = [] →
      headerLinkedit h = some seg → headerSymtab h = some st →
      _get_arch_string h.header = .ok arch →
      (m.fat = true → m.fatArchs ≠ []) →
      ∃ m2, fix_exe_for_code_signing F m = .ok m2) := by
  constructor
  · constructor
    · intro herr
      by_contra hno
      push_neg at hno
      have hfilter : h.commands.filter isSignatureCmd = [] :=
        (filter_sig_eq_nil_iff h).mpr hno
      unfold fix_exe_for_code_signing at herr
      rw [hlast, List.getLast?_concat] at herr
      dsimp only at herr
      rw [hfilter] at herr
      simp only [List.length_nil, ne_eq, not_true_eq_false, if_false] at herr
      split at herr
      · split at herr
        · split at herr
          · next e heq =>
              have hmsg := arch_string_error_msg h.header e heq
              rw [hmsg] at herr
              simp at herr
          · split at herr
            · split at herr
              · simp at herr
              · simp at herr
            · simp at herr
        · simp at herr
      · simp at herr
    · rintro ⟨cs, hmem⟩
      have hlen : (h.commands.filter isSignatureCmd).length ≠ 0 := by
        have hf : cs ∈ (h.commands.filter isSignatureCmd).filterMap
            (fun c => match c with | LoadCommand.codeSignature x => some x | _ => none) := by
          apply List.mem_filterMap.mpr
          exact ⟨LoadCommand.codeSignature cs,
            List.mem_filter.mpr ⟨hmem, by simp [isSignatureCmd]⟩, rfl⟩
        intro hzero
        rw [List.length_eq_zero] at hzero
        rw [hzero] at hf
        simp at hf
      unfold fix_exe_for_code_signing
      rw [hlast, List.getLast?_concat]
      dsimp only
      rw [if_pos hlen]
  · intro seg st arch hnosig hseg hst harch hfa
    obtain ⟨m2, hfix, _⟩ :=
      fix_exe_success_shape F m hs h seg st arch hlast hnosig hseg hst harch hfa
    exact ⟨m2, hfix⟩

/-- Counterexample for C3: a slice with no code signature whose structural
invariants all hold (exactly one version command, one `__LINKEDIT`
segment, one symtab command) but whose `cputype` (99) the resolver does
not handle: `fix_exe_for_code_signing` does not succeed — it fails with
the "Unhandled architecture!" assertion — so "no signature plus the listed
invariants" does not imply success as the claim states. -/
theorem fix_exe_unknown_arch_counterexample :
    exUnknownArchHeader.commands.filter isSignatureCmd = [] ∧
    headerLinkedit exUnknownArchHeader = some exSeg ∧
    headerSymtab exUnknownArchHeader = some exSt ∧
    _find_version_cmd exUnknownArchHeader = .ok (.versionMin exVer) ∧
    exUnknownArch.headers = [exUnknownArchHeader] ∧
    fix_exe_for_code_signing 0x5000 exUnknownArch =
      .error (.assertionError "Unhandled architecture!") :=
  ⟨rfl, rfl, rfl, rfl, rfl, rfl⟩

/-- Witness for C3 (amended): on the signed thin fixture the patch fails
with the precondition error, and the iff certifies the signature's
presence; instantiated through the amended theorem. -/
theorem fix_exe_precondition_amended_witness :
    (fix_exe_for_code_signing 0x5000 exSigned =
        .error (.assertionError "Executable contains code signature!") ↔
      ∃ cs, LoadCommand.codeSignature cs ∈ exSignedHeader.commands) ∧
    (∀ seg st arch, exSignedHeader.commands.filter isSignatureCmd = [] →
      headerLinkedit exSignedHeader = some seg →
      headerSymtab exSignedHeader = some st →
      _get_arch_string exSignedHeader.header = .ok arch →
      (exSigned.fat = true → exSigned.fatArchs ≠ []) →
      ∃ m2, fix_exe_for_code_signing 0x5000 exSigned = .ok m2) :=
  fix_exe_precondition_amended 0x5000 exSigned [] exSignedHeader rfl
